import Mathlib

/-!
Verification development for the agent-office repository.

The backend registry, token manager, idle-action scheduler and websocket
fan-out live under `src/backend/src`; the monitoring client (activity
classifier, incremental JSONL reader, server sync client) lives under
`src/cli/src` and the unnamed source parts.  Each definition below is a
shallow embedding of one source function, keeping the source's name and
control flow.  Ambient effects are made explicit:

* `Date.now()` / `Math.random()` / `uuidv4()` become explicit parameters;
* JS `Map` / `Set` objects become association lists / lists with the
  corresponding update helpers (`mapSet`, `mapDelete`, `setInsert`,
  `setDelete`);
* HTTP responses seen by the sync client become an `Oracle` indexed by the
  number of requests issued so far;
* exceptions thrown by change listeners become `Except` results.
-/

namespace AgentOffice

/-! ## Small map/set helpers (JS Map / Set on association lists) -/

/-- JS `map.set(k, v)`: replace the binding for `k` when present (keys are
unique in a JS `Map`), otherwise append a new binding. -/
def mapSet {α : Type} (k : String) (v : α) :
    List (String × α) → List (String × α)
  | [] => [(k, v)]
  | p :: tl => if p.1 = k then (k, v) :: tl else p :: mapSet k v tl

/-- JS `map.delete(k)`. -/
def mapDelete {α : Type} (k : String) (m : List (String × α)) :
    List (String × α) :=
  m.filter (fun p => p.1 ≠ k)

/-- JS `set.add(x)`: no duplicates. -/
def setInsert (x : String) (s : List String) : List String :=
  if x ∈ s then s else s ++ [x]

/-- JS `set.delete(x)`. -/
def setDelete (x : String) (s : List String) : List String :=
  s.filter (fun y => y ≠ x)

/-! ## Backend data model (`src/backend/src/types.ts`) -/

/-- Possible states an agent can be in. -/
inductive AgentState where
  | WORKING
  | IDLE
  | LEAVING
  deriving DecidableEq, Repr

/-- Activities that map to agent states. -/
inductive AgentActivity where
  | thinking
  | working
  | coding
  | reading
  | writing
  | done
  | idle
  | waiting
  | paused
  | leaving
  | offline
  | disconnected
  deriving DecidableEq, Repr

/-! ## State mapper (`src/backend/src/agents/state-mapper.ts`, `mapActivityToState`) -/

/-- Maps an agent activity to its corresponding state
(`state-mapper.ts`, lines 222-251).  The TS switch is exhaustive over the
`AgentActivity` union, so the `default` branch is dead code and the match
below has no extra case. -/
def mapActivityToState (activity : AgentActivity) : AgentState :=
  match activity with
  | .thinking => .WORKING
  | .working => .WORKING
  | .coding => .WORKING
  | .reading => .WORKING
  | .writing => .WORKING
  | .done => .IDLE
  | .idle => .IDLE
  | .waiting => .IDLE
  | .paused => .IDLE
  | .leaving => .LEAVING
  | .offline => .LEAVING
  | .disconnected => .LEAVING

/-! ## Agent registry (`src/backend/src/agents/agent-manager.ts`) -/

/-- Server-side agent record (`agents/types.ts`). -/
structure Agent where
  id : String
  displayName : String
  variantIndex : Nat
  activity : AgentActivity
  state : AgentState
  ownerKey : String
  ownerDisplayName : String
  createdAt : Nat
  updatedAt : Nat
  deriving DecidableEq, Repr

/-- The in-memory `Map<string, Agent>` of `agent-manager.ts`. -/
abbrev Registry := List (String × Agent)

/-- `createAgent` (`agent-manager.ts`, lines 64-95).  `Date.now()` is the
`now` parameter; `variantIndex ?? getRandomVariantIndex()` is resolved by the
`randomVariant` parameter standing for the random draw.  Returns the created
agent (or `none` on an id conflict) together with the updated map. -/
def createAgent (agents : Registry) (id displayName : String)
    (activity : AgentActivity) (ownerKey ownerDisplayName : String)
    (variantIndex : Option Nat) (randomVariant : Nat) (now : Nat) :
    Option Agent × Registry :=
  if (agents.lookup id).isSome then
    (none, agents)
  else
    let agent : Agent :=
      { id := id
        displayName := displayName
        variantIndex := variantIndex.getD randomVariant
        activity := activity
        state := mapActivityToState activity
        ownerKey := ownerKey
        ownerDisplayName := ownerDisplayName
        createdAt := now
        updatedAt := now }
    (some agent, mapSet id agent agents)

/-- `updateAgentActivity` (`agent-manager.ts`, lines 104-134). -/
def updateAgentActivity (agents : Registry) (id : String)
    (activity : AgentActivity) (ownerKey : String) (now : Nat) :
    Option Agent × Registry :=
  match agents.lookup id with
  | none => (none, agents)
  | some agent =>
    if agent.ownerKey ≠ ownerKey then
      (none, agents)
    else
      let agent2 :=
        { agent with
            activity := activity
            state := mapActivityToState activity
            updatedAt := now }
      (some agent2, mapSet id agent2 agents)

/-- `removeAgent` (`agent-manager.ts`, lines 142-160). -/
def removeAgent (agents : Registry) (id ownerKey : String) :
    Option Agent × Registry :=
  match agents.lookup id with
  | none => (none, agents)
  | some agent =>
    if agent.ownerKey ≠ ownerKey then
      (none, agents)
    else
      (some agent, mapDelete id agents)

/-! ## Change listeners (`agent-manager.ts`, `notifyListeners`, lines 24-32)

A TS listener `(type, agent) => void` may throw; we model its outcome as
`Except String Unit`.  The `try`/`catch` around each call in
`notifyListeners` logs the error and continues with the next listener, so
the loop visits every listener regardless of earlier outcomes. -/

/-- Kind of a registry change event. -/
inductive EvKind where
  | spawn
  | update
  | remove
  deriving DecidableEq, Repr

/-- A change listener: may succeed or throw. -/
abbrev Listener := EvKind → Agent → Except String Unit

/-- `notifyListeners` (`agent-manager.ts`, lines 24-32): call every listener
with the same event; a thrown error is caught (and logged), after which the
iteration continues with the remaining listeners.  The returned list records
each listener's outcome in order. -/
def notifyListeners (ls : List Listener) (k : EvKind) (a : Agent) :
    List (Except String Unit) :=
  match ls with
  | [] => []
  | f :: rest => f k a :: notifyListeners rest k a

/-- `createAgent` followed by the `notifyListeners('spawn', agent)` call it
makes on success (`agent-manager.ts`, line 93). -/
def createAgentN (ls : List Listener) (agents : Registry)
    (id displayName : String) (activity : AgentActivity)
    (ownerKey ownerDisplayName : String) (variantIndex : Option Nat)
    (randomVariant now : Nat) :
    (Option Agent × Registry) × List (Except String Unit) :=
  match createAgent agents id displayName activity ownerKey
      ownerDisplayName variantIndex randomVariant now with
  | (none, reg) => ((none, reg), [])
  | (some a, reg) => ((some a, reg), notifyListeners ls .spawn a)

/-- `updateAgentActivity` followed by its `notifyListeners('update', agent)`
call (`agent-manager.ts`, line 131). -/
def updateAgentActivityN (ls : List Listener) (agents : Registry)
    (id : String) (activity : AgentActivity) (ownerKey : String) (now : Nat) :
    (Option Agent × Registry) × List (Except String Unit) :=
  match updateAgentActivity agents id activity ownerKey now with
  | (none, reg) => ((none, reg), [])
  | (some a, reg) => ((some a, reg), notifyListeners ls .update a)

/-- `removeAgent` followed by its `notifyListeners('remove', agent)` call
(`agent-manager.ts`, line 158). -/
def removeAgentN (ls : List Listener) (agents : Registry)
    (id ownerKey : String) :
    (Option Agent × Registry) × List (Except String Unit) :=
  match removeAgent agents id ownerKey with
  | (none, reg) => ((none, reg), [])
  | (some a, reg) => ((some a, reg), notifyListeners ls .remove a)

/-! ## Token manager (`src/backend/src/auth/token-manager.ts`) -/

/-- A configured user (`auth/types.ts`). -/
structure AuthUser where
  key : String
  displayName : String
  deriving DecidableEq, Repr

/-- A session token (`auth/types.ts`). -/
structure Token where
  token : String
  user : AuthUser
  createdAt : Nat
  expiresAt : Nat
  lastActivity : Nat
  deriving DecidableEq, Repr

/-- The configuration fields the token manager reads. -/
structure BackendConfig where
  tokenExpirySeconds : Nat
  inactivityTimeoutSeconds : Nat
  deriving DecidableEq, Repr

/-- The in-memory `Map<string, Token>` of `token-manager.ts`. -/
abbrev TokenStore := List (String × Token)

/-- `generateToken` (`token-manager.ts`, lines 17-34).  `uuidv4()` is the
`freshValue` parameter and `Date.now()` the `now` parameter.  The function
only inserts the new token; it does not look at, or delete, any other entry
of the store. -/
def generateToken (store : TokenStore) (user : AuthUser)
    (cfg : BackendConfig) (now : Nat) (freshValue : String) :
    Token × TokenStore :=
  let expiresAt := now + cfg.tokenExpirySeconds * 1000
  let token : Token :=
    { token := freshValue
      user := user
      createdAt := now
      expiresAt := expiresAt
      lastActivity := now }
  (token, mapSet freshValue token store)

/-- Number of stored tokens bound to the user with the given key. -/
def userTokenCount (store : TokenStore) (key : String) : Nat :=
  (store.filter (fun p => p.2.user.key = key)).length

/-- Concrete user for witnesses/counterexamples. -/
def aliceUser : AuthUser := { key := "k1", displayName := "Alice" }

/-- Concrete configuration for witnesses/counterexamples. -/
def demoConfig : BackendConfig :=
  { tokenExpirySeconds := 3600, inactivityTimeoutSeconds := 300 }

/-- Concrete agent for witnesses/counterexamples. -/
def demoAgent : Agent :=
  { id := "a1"
    displayName := "Mo"
    variantIndex := 0
    activity := .idle
    state := .IDLE
    ownerKey := "k1"
    ownerDisplayName := "Alice"
    createdAt := 0
    updatedAt := 0 }

/-! ## Idle action scheduler (`src/backend/src/idle-actions/idle-action-service.ts`)

The service reacts to registry change events (`handleAgentChange`) and to
its own `setTimeout` callbacks (`scheduleIdleAction`, lines 79-117).  We
model the combined registry + service state as a transition system: an
event is either a registry mutation (spawn / update / remove, which the
registry performs and then notifies the service about) or the firing of a
pending idle-action timer.  The random delay only decides when a timer
fires, which the `timerFire` event carries; `pickAction()` always returns
the string "get_drink".  The JS float test `activeCount / idleCount >= 0.4`
is exact rational arithmetic for all realistic counts and is written as
`2 * idleCount ≤ 5 * activeCount`. -/

/-- An idle action assigned to an agent (`IdleActionAssignment`). -/
structure IdleActionAssignment where
  action : String
  assignedAt : Nat
  deriving DecidableEq, Repr

/-- The slice of an `Agent` the scheduler reads and writes: its registry id,
its derived state and the `idleAction` field the service mutates in place
(`null` at creation). -/
structure SAgent where
  id : String
  state : AgentState
  idleAction : Option IdleActionAssignment
  deriving DecidableEq, Repr

/-- Combined state: the registry's agent list plus the service's
`pendingTimers` key set. -/
structure SchedState where
  agents : List SAgent
  pendingTimers : List String
  deriving DecidableEq, Repr

/-- `countIdleAgents` (`idle-action-service.ts`, lines 66-74). -/
def countIdleAgents (agents : List SAgent) : Nat :=
  agents.countP (fun a => a.state == AgentState.IDLE)

/-- `countActiveIdleActions` (`idle-action-service.ts`, lines 53-61). -/
def countActiveIdleActions (agents : List SAgent) : Nat :=
  agents.countP (fun a => a.state == AgentState.IDLE && a.idleAction.isSome)

/-- `getAgent` on the modelled slice: the registry map holds one entry per
id, modelled as the first matching list entry. -/
def findAgent (agents : List SAgent) (id : String) : Option SAgent :=
  agents.find? (fun a => a.id == id)

/-- Mutation `agent.idleAction = act` of the (unique) registry entry for
`id`. -/
def setAgentAction (agents : List SAgent) (id : String)
    (act : Option IdleActionAssignment) : List SAgent :=
  match agents with
  | [] => []
  | a :: rest =>
    if a.id == id then { a with idleAction := act } :: rest
    else a :: setAgentAction rest id act

/-- Registry mutation of the (unique) entry's state on `update`. -/
def setAgentState (agents : List SAgent) (id : String) (st : AgentState) :
    List SAgent :=
  match agents with
  | [] => []
  | a :: rest =>
    if a.id == id then { a with state := st } :: rest
    else a :: setAgentState rest id st

/-- `scheduleIdleAction` up to its timer callback (`idle-action-service.ts`,
lines 79-83, 116): cancel any existing timer for the agent, then register a
fresh pending timer. -/
def scheduleIdleAction (s : SchedState) (id : String) : SchedState :=
  { s with pendingTimers := setInsert id (setDelete id s.pendingTimers) }

/-- `cancelPendingTimer` (`idle-action-service.ts`, lines 122-128). -/
def cancelPendingTimer (s : SchedState) (id : String) : SchedState :=
  { s with pendingTimers := setDelete id s.pendingTimers }

/-- The body of the `setTimeout` callback inside `scheduleIdleAction`
(`idle-action-service.ts`, lines 85-114), run when a pending timer for `id`
fires at time `now`. -/
def timerFireStep (s : SchedState) (id : String) (now : Nat) : SchedState :=
  let s1 : SchedState := { s with pendingTimers := setDelete id s.pendingTimers }
  match findAgent s1.agents id with
  | none => s1
  | some a =>
    if a.state ≠ AgentState.IDLE then s1
    else
      let idleCount := countIdleAgents s1.agents
      let activeCount := countActiveIdleActions s1.agents
      if 0 < idleCount ∧ 2 * idleCount ≤ 5 * activeCount then
        scheduleIdleAction s1 id
      else
        { s1 with
            agents := setAgentAction s1.agents id
              (some { action := "get_drink", assignedAt := now }) }

/-- `handleAgentChange` (`idle-action-service.ts`, lines 133-161), reacting
to a registry change event for agent `id`; the agent object it receives is
the post-mutation registry entry. -/
def handleAgentChange (s : SchedState) (kind : EvKind) (id : String) :
    SchedState :=
  match kind with
  | .spawn =>
    match findAgent s.agents id with
    | some a => if a.state == AgentState.IDLE then scheduleIdleAction s id else s
    | none => s
  | .update =>
    match findAgent s.agents id with
    | some a =>
      if a.state == AgentState.IDLE && a.idleAction == none then
        if id ∈ s.pendingTimers then s else scheduleIdleAction s id
      else if a.state != AgentState.IDLE then
        let s1 := cancelPendingTimer s id
        if a.idleAction ≠ none then
          { s1 with agents := setAgentAction s1.agents id none }
        else s1
      else s
    | none => s
  | .remove => cancelPendingTimer s id

/-- Events driving the combined registry + scheduler state. -/
inductive SchedEvent where
  | spawn (id : String) (st : AgentState)
  | update (id : String) (st : AgentState)
  | remove (id : String)
  | timerFire (id : String) (now : Nat)
  deriving DecidableEq, Repr

/-- One step of the combined system: the registry mutation (spawn inserts a
fresh agent with `idleAction` null, update rewrites the entry's state,
remove deletes the entry; a mutation that the registry rejects emits no
event), followed by the service's `handleAgentChange` reaction; or a timer
firing (`setTimeout` callbacks run only while their timer is pending). -/
def schedStep (s : SchedState) (e : SchedEvent) : SchedState :=
  match e with
  | .spawn id st =>
    if (findAgent s.agents id).isSome then s
    else
      let s1 : SchedState :=
        { s with agents := s.agents ++ [{ id := id, state := st, idleAction := none }] }
      handleAgentChange s1 .spawn id
  | .update id st =>
    match findAgent s.agents id with
    | none => s
    | some _ =>
      let s1 : SchedState := { s with agents := setAgentState s.agents id st }
      handleAgentChange s1 .update id
  | .remove id =>
    match findAgent s.agents id with
    | none => s
    | some _ =>
      let s1 : SchedState := { s with agents := s.agents.filter (fun a => a.id != id) }
      handleAgentChange s1 .remove id
  | .timerFire id now =>
    if id ∈ s.pendingTimers then timerFireStep s id now else s

/-- The empty initial state (no agents, no timers). -/
def schedInit : SchedState := { agents := [], pendingTimers := [] }

/-- Concrete scheduler state for the C5 witness: one idle agent whose
idle-action timer is pending. -/
def c5State : SchedState :=
  { agents := [{ id := "a", state := .IDLE, idleAction := none }]
    pendingTimers := ["a"] }

/-! ## WebSocket fan-out (`src/backend/src/websocket/server.ts`)

`initWebSocketServer`'s connection handler (lines 242-251) adds the socket
to the client set and immediately calls `syncAgentsToClient` on it.  We
model the ordered sequence of messages that function sends to the new
subscriber.  The `user_stats` payload (active users/session counts) is
orthogonal to the replay ordering and is modelled as an opaque
constructor. -/

/-- Backend-to-subscriber websocket messages (`src/backend/src/types.ts`). -/
inductive OutMsg where
  | spawnAgent (id displayName userName : String) (variantIndex : Nat)
      (state : AgentState)
  | updateAgent (id : String) (state : AgentState)
  | removeAgent (id : String)
  | syncComplete (agentIds : List String)
  | userStats
  deriving DecidableEq, Repr

/-- The `SpawnAgentPayload` built for one agent (`websocket/server.ts`,
lines 207-213). -/
def mkSpawnPayload (a : Agent) : OutMsg :=
  .spawnAgent a.id a.displayName a.ownerDisplayName a.variantIndex a.state

/-- `syncAgentsToClient` (`websocket/server.ts`, lines 202-223): send one
`spawn_agent` per current agent, then a single `sync_complete` carrying all
current agent ids, then the current user stats. -/
def syncAgentsToClient (agents : List Agent) : List OutMsg :=
  (agents.map mkSpawnPayload) ++
    [OutMsg.syncComplete (agents.map (fun a => a.id)), OutMsg.userStats]

/-- Recognizer for `spawn_agent` messages. -/
def isSpawnMsg : OutMsg → Bool
  | .spawnAgent _ _ _ _ _ => true
  | _ => false

/-- Recognizer for `sync_complete` messages. -/
def isSyncCompleteMsg : OutMsg → Bool
  | .syncComplete _ => true
  | _ => false

/-! ## CLI data model (`src/cli/src/types.ts`) -/

/-- Activity status for display (CLI side). -/
inductive ActivityType where
  | reading
  | writing
  | running_command
  | spawning_agent
  | searching
  | waiting_input
  | thinking
  | done
  | idle
  deriving DecidableEq, Repr

/-- The tool-input fields `extractToolDetail` reads.  A JS `undefined` field
is `none`; the `questions` array holds objects whose `question` field may be
missing. -/
structure ToolInput where
  file_path : Option String := none
  pattern : Option String := none
  description : Option String := none
  url : Option String := none
  query : Option String := none
  questions : List (Option String) := []
  deriving DecidableEq, Repr

/-- Content block in a message (text, tool_use, tool_result, ...). -/
structure ContentBlock where
  type : String
  text : Option String := none
  name : Option String := none
  input : Option ToolInput := none
  deriving DecidableEq, Repr

/-- A message body's `content`: at runtime either a plain string or an array
of blocks (`getLatestActivity` tests `typeof content === 'string'` and
`Array.isArray(content)`). -/
inductive MsgContent where
  | str (s : String)
  | blocks (bs : List ContentBlock)
  deriving DecidableEq, Repr

/-- The `message` field of a conversation log record. -/
structure MessageBody where
  role : String
  content : MsgContent
  deriving DecidableEq, Repr

/-- A message from the conversation log. -/
structure ConversationMessage where
  type : String
  message : Option MessageBody := none
  isSidechain : Option Bool := none
  cwd : Option String := none
  deriving DecidableEq, Repr

/-- Activity info including what tool is being used. -/
structure ActivityInfo where
  type : ActivityType
  detail : Option String := none
  toolName : Option String := none
  deriving DecidableEq, Repr

/-- `TOOL_ACTIVITY_MAP` (`cli/src/types.ts`, lines 124-135). -/
def TOOL_ACTIVITY_MAP : List (String × ActivityInfo) :=
  [("Read", { type := .reading, toolName := some "Read" }),
   ("Edit", { type := .writing, toolName := some "Edit" }),
   ("Write", { type := .writing, toolName := some "Write" }),
   ("Bash", { type := .running_command, toolName := some "Bash" }),
   ("Task", { type := .spawning_agent, toolName := some "Task" }),
   ("Glob", { type := .searching, toolName := some "Glob" }),
   ("Grep", { type := .searching, toolName := some "Grep" }),
   ("AskUserQuestion", { type := .waiting_input, toolName := some "AskUserQuestion" }),
   ("WebFetch", { type := .reading, toolName := some "WebFetch" }),
   ("WebSearch", { type := .searching, toolName := some "WebSearch" })]

/-! ## Activity classifier (`src/cli/src/data/activity-tracker.ts`) -/

/-- Timeout in ms after which an inactive session is considered stale. -/
def ACTIVITY_TIMEOUT_MS : Nat := 30000

/-- Max timeout for waiting-for-input sessions before they count as
abandoned. -/
def WAITING_INPUT_TIMEOUT_MS : Nat := 30 * 60 * 1000

/-- Tools that wait for user input (`activity-tracker.ts`, lines 11-15). -/
def USER_INPUT_TOOLS : List String :=
  ["AskUserQuestion", "EnterPlanMode", "ExitPlanMode"]

/-- `extractToolDetail` (`activity-tracker.ts`, lines 158-190).  String
truncation uses codepoint counts for the JS UTF-16 `length`/`slice`; the
JS truthiness test on `questions[0].question` makes an empty question
string yield no detail. -/
def extractToolDetail (toolName : String) (input : Option ToolInput) :
    Option String :=
  match input with
  | none => none
  | some inp =>
    match toolName with
    | "Read" => inp.file_path
    | "Edit" => inp.file_path
    | "Write" => inp.file_path
    | "Bash" => none
    | "Glob" => inp.pattern
    | "Grep" => inp.pattern
    | "Task" => inp.description
    | "WebFetch" => inp.url
    | "WebSearch" => inp.query
    | "AskUserQuestion" =>
      match inp.questions with
      | some q :: _ =>
        if q = "" then none
        else if q.length > 50 then some (q.take 47 ++ "...") else some q
      | _ => none
    | _ => none

/-- Does the record window hold a plain user record (`type` and `role` both
"user") — the `hasUserResponseAfter` test of `activity-tracker.ts`,
lines 70-72. -/
def hasUserRecord (ms : List ConversationMessage) : Bool :=
  ms.any (fun m2 =>
    m2.type == "user" &&
      (match m2.message with
       | some b2 => b2.role == "user"
       | none => false))

/-- The reverse scan of `getLatestActivity` (`activity-tracker.ts`,
lines 56-149).  The first argument is the unscanned part of the window in
newest-to-oldest order; `after` collects the records that come after the
current one in original order (used only for the user-response existence
test).  Each list step performs, in source order: the tool_use branch
(lines 64-111), the assistant text-only branch (lines 113-130) and the
tool_result branch (lines 133-146), falling through to the next-older
record otherwise. -/
def scanMessages (hasPid : Bool) (isStale : Bool) (timeSinceModified : Nat) :
    List ConversationMessage → List ConversationMessage → ActivityInfo
  | [], _ => { type := .idle }
  | m :: earlier, after =>
    let staleType : ActivityType := if hasPid then .idle else .done
    let next := scanMessages hasPid isStale timeSinceModified earlier (m :: after)
    let toolResultCheck : ActivityInfo :=
      match m.message with
      | some body =>
        if m.type == "user" && body.role == "user" then
          match body.content with
          | .blocks bs =>
            if bs.any (fun b => b.type == "tool_result") then
              if isStale then { type := staleType } else { type := .thinking }
            else next
          | .str _ => next
        else next
      | none => next
    match m.message with
    | some body =>
      match body.content with
      | .blocks bs =>
        let assistantTextCheck : ActivityInfo :=
          if body.role == "assistant" && m.type == "assistant" then
            let hasText := bs.any (fun b => b.type == "text")
            let hasToolUse := bs.any (fun b => b.type == "tool_use")
            if hasText && !hasToolUse then { type := staleType }
            else if hasText then
              if isStale then { type := staleType } else { type := .thinking }
            else toolResultCheck
          else toolResultCheck
        match bs.find? (fun b => b.type == "tool_use") with
        | some tb =>
          match tb.name with
          | some nm =>
            if nm ≠ "" then
              if nm ∈ USER_INPUT_TOOLS then
                if hasUserRecord after then
                  if isStale then { type := staleType } else { type := .thinking }
                else if timeSinceModified > WAITING_INPUT_TIMEOUT_MS then
                  { type := .done }
                else
                  { type := .waiting_input
                    toolName := some nm
                    detail := extractToolDetail nm tb.input }
              else if isStale then { type := staleType }
              else
                match TOOL_ACTIVITY_MAP.lookup nm with
                | some act => { act with detail := extractToolDetail nm tb.input }
                | none => { type := .thinking, toolName := some nm }
            else assistantTextCheck
          | none => assistantTextCheck
        | none => assistantTextCheck
      | .str _ => toolResultCheck
    | none => toolResultCheck

/-- `getLatestActivity` (`activity-tracker.ts`, lines 23-150).
`Date.now()` is the `now` parameter.  The source computes
`lastModified ? Date.now() - lastModified : 0`, a JS truthiness test:
`timeSinceModified` is 0 — the window is never stale — both when
`lastModified` is absent and when it is the falsy number 0.  The up-front
branch (lines 30-54) inspects the very last record; otherwise the window
is scanned newest to oldest. -/
def getLatestActivity (messages : List ConversationMessage)
    (lastModified : Option Nat) (hasPid : Bool) (now : Nat) : ActivityInfo :=
  let timeSinceModified := match lastModified with
    | some t => if t = 0 then 0 else now - t
    | none => 0
  let isStale := timeSinceModified > ACTIVITY_TIMEOUT_MS
  let staleType : ActivityType := if hasPid then .idle else .done
  let scan := scanMessages hasPid isStale timeSinceModified messages.reverse []
  match messages.getLast? with
  | some lastMsg =>
    if lastMsg.type == "user" then
      match lastMsg.message with
      | some body =>
        if body.role == "user" then
          match body.content with
          | .str _ =>
            if isStale then { type := staleType } else { type := .thinking }
          | .blocks content =>
            if content.any (fun b => b.type == "tool_result") then
              { type := .thinking }
            else if isStale then { type := staleType }
            else { type := .thinking }
        else scan
      | none => scan
    else scan
  | none => scan

/-- Concrete record for C1: an assistant text-only message. -/
def asstTextMsg : ConversationMessage :=
  { type := "assistant"
    message := some
      { role := "assistant"
        content := .blocks [{ type := "text", text := some "all done" }] } }

/-- Concrete record for C1: a user message holding a tool result. -/
def userToolResultMsg : ConversationMessage :=
  { type := "user"
    message := some
      { role := "user"
        content := .blocks [{ type := "tool_result" }] } }

/-- Concrete record for C1: a plain user text message. -/
def userTextMsg : ConversationMessage :=
  { type := "user"
    message := some { role := "user", content := .str "hi" } }

/-! ## Incremental JSONL reader (`IncrementalReader`, `src/unnamed/part_021`)

A file's contents are modelled as a list of characters, so `stat(...).size`
is the list length and `readFromPosition(path, a, b)` is the slice
`[a, b)`.  `JSON.parse` applied to a trimmed line is an oracle parameter
`parse` (a failed parse — a thrown exception — is `none`); the reader never
inspects parsed values.  `fs` effects are explicit: every call receives the
file contents current at call time. -/

/-- Per-reader mutable state: `filePositions`, `messageCache` and the
`maxCachedMessages` cap (constructor default 200). -/
structure ReaderState where
  filePositions : List (String × Nat)
  messageCache : List (String × List ConversationMessage)
  maxCachedMessages : Nat
  deriving DecidableEq, Repr

/-- The JS whitespace characters relevant to `String.trim` on JSONL input. -/
def isJsWs (c : Char) : Bool :=
  c = ' ' || c = '\t' || c = '\n' || c = '\r'

/-- JS `line.trim()`. -/
def jsTrim (l : List Char) : List Char :=
  ((l.dropWhile isJsWs).reverse.dropWhile isJsWs).reverse

/-- JS `content.split('\n')` (keeps empty segments, including a trailing
one). -/
def splitNl : List Char → List (List Char)
  | [] => [[]]
  | c :: cs =>
    if c = '\n' then [] :: splitNl cs
    else
      match splitNl cs with
      | [] => [[c]]
      | l :: ls => (c :: l) :: ls

/-- JS `arr.slice(-n)` (note `slice(-0)` is `slice(0)`, the whole array). -/
def sliceNegFrom {α : Type} (n : Nat) (l : List α) : List α :=
  if n = 0 then l else l.drop (l.length - n)

/-- `parseJsonlContent` (`part_021`, lines 191-208): split into lines, skip
lines that are empty after trimming, parse each remaining line, skipping
lines whose parse throws. -/
def parseJsonlContent (parse : List Char → Option ConversationMessage)
    (content : List Char) : List ConversationMessage :=
  (splitNl content).filterMap (fun line =>
    let trimmed := jsTrim line
    if trimmed.length = 0 then none else parse trimmed)

/-- `updateCache` (`part_021`, lines 215-222): append the new messages to
the cached ones and keep only the most recent `maxCachedMessages`. -/
def updateCache (rs : ReaderState) (path : String)
    (newMessages : List ConversationMessage) : ReaderState :=
  let existing := (rs.messageCache.lookup path).getD []
  let combined := existing ++ newMessages
  let trimmed := sliceNegFrom rs.maxCachedMessages combined
  { rs with messageCache := mapSet path trimmed rs.messageCache }

/-- The read-and-advance phase of `readNewLines` (`part_021`, lines 51-61),
entered with a known last-read position: if the file has not grown past it,
return no new records; otherwise read `[lastPosition, size)`, advance the
stored position to `size`, parse the new lines and fold them into the
cache. -/
def readStep (parse : List Char → Option ConversationMessage)
    (rs : ReaderState) (path : String) (file : List Char)
    (lastPosition : Nat) : List ConversationMessage × ReaderState :=
  if file.length ≤ lastPosition then ([], rs)
  else
    let newContent := (file.drop lastPosition).take (file.length - lastPosition)
    let rs1 := { rs with filePositions := mapSet path file.length rs.filePositions }
    let newMessages := parseJsonlContent parse newContent
    (newMessages, updateCache rs1 path newMessages)

/-- `readNewLines` (`part_021`, lines 34-66).  When the file shrank below
the stored position (truncation/replacement) the source resets the position
to 0, drops the cache and calls itself again; within one call the re-stat
sees the same file, so that recursion is unfolded into `readStep` from
position 0.  Otherwise an unchanged file yields no records and a grown file
enters `readStep` at the stored position. -/
def readNewLines (parse : List Char → Option ConversationMessage)
    (rs : ReaderState) (path : String) (file : List Char) :
    List ConversationMessage × ReaderState :=
  let currentSize := file.length
  let lastPosition := (rs.filePositions.lookup path).getD 0
  if currentSize < lastPosition then
    let rs1 := { rs with
      filePositions := mapSet path 0 rs.filePositions
      messageCache := mapDelete path rs.messageCache }
    readStep parse rs1 path file 0
  else if currentSize ≤ lastPosition then ([], rs)
  else readStep parse rs path file lastPosition

/-- `getRecentMessages` (`part_021`, lines 75-82): pull in any new lines,
then return the cached tail. -/
def getRecentMessages (parse : List Char → Option ConversationMessage)
    (rs : ReaderState) (path : String) (file : List Char)
    (maxMessages : Nat) : List ConversationMessage × ReaderState :=
  let rs1 := (readNewLines parse rs path file).2
  let cached := (rs1.messageCache.lookup path).getD []
  (sliceNegFrom maxMessages cached, rs1)

/-- Concatenation of the appended JSONL lines, each terminated by a
newline. -/
def joinLines (lines : List (List Char)) : List Char :=
  lines.foldr (fun l acc => l ++ '\n' :: acc) []

/-- Length of the cached record list for a path. -/
def cacheLen (rs : ReaderState) (path : String) : Nat :=
  ((rs.messageCache.lookup path).getD []).length

/-- A well-formed appended JSONL line: no embedded newline, non-blank, and
its trimmed text parses. -/
def goodLine (parse : List Char → Option ConversationMessage)
    (l : List Char) : Prop :=
  '\n' ∉ l ∧ jsTrim l ≠ [] ∧ (parse (jsTrim l)).isSome

/-- Concrete record for the C7 witness. -/
def c7msg : ConversationMessage := { type := "assistant" }

/-- Concrete parse oracle for the C7 witness. -/
def c7parse : List Char → Option ConversationMessage := fun _ => some c7msg

/-- Concrete file contents "x\n" for the C7 witness. -/
def c7file : List Char := ['x', '\n']

/-- Fresh reader state (constructor default cap 200). -/
def c7rs0 : ReaderState :=
  { filePositions := [], messageCache := [], maxCachedMessages := 200 }

/-! ## Backend sync client (`ServerClient`, `src/unnamed/part_019`,
newer version: class body from line 745, `createAgent` lines 880-920,
`updateAgent` lines 928-966, `removeAgent` lines 973-992, `syncAll`
lines 1008-1051)

HTTP responses are an `Oracle` consulted at each request, indexed by the
number of requests this client has issued so far (`n`), so responses may
vary over time.  The `request` helper's authentication / 401-retry loop is
folded into the oracle: `ok` is a 2xx with data, `conflict` a 409,
`notFound` a 404, and `error` covers every other failure (network error,
auth failure, other status).  Each operation returns its boolean result,
the updated local sync state, and the trace of requests it issued in
order.  `generateName` and the request payloads are not modelled: a trace
entry records the operation kind and the agent id.  The float
`session.tokens.percentage` is only stored and compared for equality, and
is modelled as `Nat`. -/

/-- `mapActivityToBackend` (`part_019`, lines 686-709); the `default`
branch is dead code since the nine CLI activity types are all listed. -/
def mapActivityToBackend : ActivityType → AgentActivity
  | .reading => .reading
  | .writing => .writing
  | .running_command => .working
  | .spawning_agent => .working
  | .searching => .reading
  | .waiting_input => .waiting
  | .thinking => .thinking
  | .done => .done
  | .idle => .idle

/-- The fields of a `TrackedSession` the sync client reads. -/
structure TrackedSession where
  agentId : String
  activityType : ActivityType
  contextPercentage : Nat
  isSidechain : Bool := false
  parentSessionId : Option String := none
  deriving DecidableEq, Repr

/-- The client's local sync state: `syncedAgents`, `lastActivityMap`,
`lastContextMap`. -/
structure ClientState where
  syncedAgents : List String
  lastActivityMap : List (String × AgentActivity)
  lastContextMap : List (String × Nat)
  deriving DecidableEq, Repr

/-- One request issued to the backend. -/
inductive Call where
  | create (id : String)
  | update (id : String)
  | remove (id : String)
  | heartbeat
  deriving DecidableEq, Repr

/-- Response to a create request. -/
inductive CreateResp where
  | ok
  | conflict
  | error
  deriving DecidableEq, Repr

/-- Response to an update request. -/
inductive UpdateResp where
  | ok
  | notFound
  | error
  deriving DecidableEq, Repr

/-- Response to a remove request. -/
inductive RemoveResp where
  | ok
  | notFound
  | error
  deriving DecidableEq, Repr

/-- The backend as seen through `request`: a response for each request,
indexed by how many requests were issued before it. -/
structure Oracle where
  createResp : Nat → String → CreateResp
  updateResp : Nat → String → UpdateResp
  removeResp : Nat → String → RemoveResp

namespace ServerClient

mutual

/-- `ServerClient.createAgent` (`part_019`, lines 880-920): issue the
create; on success mark synced and record the sent tuple; on a 409
conflict with `depth < 3`, mark synced and switch to an update; otherwise
fail. -/
def createAgent (o : Oracle) (st : ClientState) (s : TrackedSession)
    (depth n : Nat) : Bool × ClientState × List Call :=
  let activity := mapActivityToBackend s.activityType
  let id := s.agentId
  match o.createResp n id with
  | .ok =>
    (true,
     { syncedAgents := setInsert id st.syncedAgents
       lastActivityMap := mapSet id activity st.lastActivityMap
       lastContextMap := mapSet id s.contextPercentage st.lastContextMap },
     [Call.create id])
  | .conflict =>
    if h : depth < 3 then
      let st1 := { st with syncedAgents := setInsert id st.syncedAgents }
      let r := updateAgent o st1 s (depth + 1) (n + 1)
      (r.1, r.2.1, Call.create id :: r.2.2)
    else (false, st, [Call.create id])
  | .error => (false, st, [Call.create id])
termination_by 3 - depth
decreasing_by omega

/-- `ServerClient.updateAgent` (`part_019`, lines 928-966): skip (and
succeed) when neither activity nor context changed since the last sent
tuple; otherwise issue the update; on a 404 with `depth < 3`, clear the
local sync state for the id and — unless the activity is `done`, in which
case the update is dropped as a success — recreate the agent. -/
def updateAgent (o : Oracle) (st : ClientState) (s : TrackedSession)
    (depth n : Nat) : Bool × ClientState × List Call :=
  let activity := mapActivityToBackend s.activityType
  let id := s.agentId
  let ctx := s.contextPercentage
  if st.lastActivityMap.lookup id = some activity ∧
      st.lastContextMap.lookup id = some ctx then
    (true, st, [])
  else
    match o.updateResp n id with
    | .ok =>
      (true,
       { st with
           lastActivityMap := mapSet id activity st.lastActivityMap
           lastContextMap := mapSet id ctx st.lastContextMap },
       [Call.update id])
    | .notFound =>
      if h : depth < 3 then
        let st1 : ClientState :=
          { syncedAgents := setDelete id st.syncedAgents
            lastActivityMap := mapDelete id st.lastActivityMap
            lastContextMap := mapDelete id st.lastContextMap }
        if activity = .done then (true, st1, [Call.update id])
        else
          let r := createAgent o st1 s (depth + 1) (n + 1)
          (r.1, r.2.1, Call.update id :: r.2.2)
      else (false, st, [Call.update id])
    | .error => (false, st, [Call.update id])
termination_by 3 - depth
decreasing_by omega

end

/-- `ServerClient.removeAgent` (`part_019`, lines 973-992): issue the
delete; both a confirmed deletion and a 404 count as success and clear the
local sync state for the id; any other failure returns false and leaves
the local state unchanged. -/
def removeAgent (o : Oracle) (st : ClientState) (sessionId : String)
    (n : Nat) : Bool × ClientState × List Call :=
  match o.removeResp n sessionId with
  | .error => (false, st, [Call.remove sessionId])
  | _ =>
    (true,
     { syncedAgents := setDelete sessionId st.syncedAgents
       lastActivityMap := mapDelete sessionId st.lastActivityMap
       lastContextMap := mapDelete sessionId st.lastContextMap },
     [Call.remove sessionId])

/-- The removal loop of `syncAll` (`part_019`, lines 1020-1023). -/
def removeLoop (o : Oracle) (st : ClientState) (ids : List String)
    (n : Nat) : ClientState × List Call :=
  match ids with
  | [] => (st, [])
  | id :: rest =>
    let r := removeAgent o st id n
    let rr := removeLoop o r.2.1 rest (n + r.2.2.length)
    (rr.1, r.2.2 ++ rr.2)

/-- The create-or-update loop of `syncAll` (`part_019`, lines 1026-1045):
a synced session is updated only when its `(activity, contextPercentage)`
tuple changed; an unsynced session whose mapped activity is already `done`
is skipped (never recreated); other unsynced sessions are created. -/
def syncLoop (o : Oracle) (st : ClientState)
    (sessions : List TrackedSession) (n : Nat) : ClientState × List Call :=
  match sessions with
  | [] => (st, [])
  | s :: rest =>
    let id := s.agentId
    let activity := mapActivityToBackend s.activityType
    if id ∈ st.syncedAgents then
      if st.lastActivityMap.lookup id ≠ some activity ∨
          st.lastContextMap.lookup id ≠ some s.contextPercentage then
        let r := updateAgent o st s 0 n
        let rr := syncLoop o r.2.1 rest (n + r.2.2.length)
        (rr.1, r.2.2 ++ rr.2)
      else syncLoop o st rest n
    else
      if activity = .done then syncLoop o st rest n
      else
        let r := createAgent o st s 0 n
        let rr := syncLoop o r.2.1 rest (n + r.2.2.length)
        (rr.1, r.2.2 ++ rr.2)

/-- `ServerClient.syncAll` (`part_019`, lines 1008-1051): remove synced
agents absent from the session map, create/update the present ones, and if
no request was issued while agents remain synced, send a heartbeat
(`madeApiCall` is equivalent to a non-empty request trace, since every
taken branch issues at least one request). -/
def syncAll (o : Oracle) (st : ClientState)
    (sessions : List TrackedSession) (n : Nat) : ClientState × List Call :=
  let agentsToRemove :=
    st.syncedAgents.filter (fun id => !sessions.any (fun s => s.agentId == id))
  let r1 := removeLoop o st agentsToRemove n
  let r2 := syncLoop o r1.1 sessions (n + r1.2.length)
  let trace := r1.2 ++ r2.2
  if trace = [] ∧ r2.1.syncedAgents ≠ [] then (r2.1, [Call.heartbeat])
  else (r2.1, trace)

end ServerClient

end AgentOffice

namespace AgentOffice

/-! ## Theorems -/

/-- `mapSet` keeps every binding whose key differs from the one written. -/
theorem mem_mapSet_of_ne {α : Type} :
    ∀ (m : List (String × α)) (k : String) (v : α) (e : String × α),
      e ∈ m → e.1 ≠ k → e ∈ mapSet k v m := by
  intro m k v e
  induction m with
  | nil => intro he _; cases he
  | cons p tl ih =>
    intro he hne
    rcases List.mem_cons.mp he with he | he
    · subst he
      simp [mapSet, hne]
    · by_cases hp : p.1 = k
      · simp only [mapSet, hp, if_true]
        exact List.mem_cons_of_mem _ he
      · simp only [mapSet, hp, if_false]
        exact List.mem_cons_of_mem _ (ih he hne)

/-- Looking up the key just written by `mapSet` yields the written value. -/
theorem lookup_mapSet_self {α : Type} :
    ∀ (m : List (String × α)) (k : String) (v : α),
      (mapSet k v m).lookup k = some v := by
  intro m k v
  induction m with
  | nil => simp [mapSet, List.lookup]
  | cons p tl ih =>
    by_cases hp : p.1 = k
    · simp [mapSet, hp, List.lookup]
    · simp only [mapSet, hp, if_false, List.lookup]
      have : (k == p.1) = false := by
        simpa using fun h => hp h.symm
      simp [this, ih]

/-- Looking up a deleted key yields nothing. -/
theorem lookup_mapDelete_self {α : Type} :
    ∀ (m : List (String × α)) (k : String),
      (mapDelete k m).lookup k = none := by
  intro m k
  induction m with
  | nil => rfl
  | cons p tl ih =>
    obtain ⟨a, b⟩ := p
    unfold mapDelete at ih ⊢
    rw [List.filter_cons]
    by_cases hp : a = k
    · have hd0 : decide ((a, b).1 ≠ k) = false := by simp [hp]
      rw [hd0, if_neg (by simp)]
      exact ih
    · have hd : decide ((a, b).1 ≠ k) = true := by simpa using hp
      rw [hd, if_pos rfl]
      have hbk : (k == a) = false := by
        simpa using fun h => hp h.symm
      simp only [List.lookup, hbk]
      exact ih

/-- Claim C3: for every value of the activity enumeration,
`mapActivityToState` is a pure, total function whose result is one of
WORKING, IDLE, LEAVING, with thinking/working/coding/reading/writing mapping
to WORKING, done/idle/waiting/paused to IDLE, and
leaving/offline/disconnected to LEAVING. -/
theorem c3_mapActivityToState_table :
    ∀ a : AgentActivity,
      mapActivityToState a ∈ [AgentState.WORKING, .IDLE, .LEAVING] ∧
      (mapActivityToState a = .WORKING ↔
        a ∈ [AgentActivity.thinking, .working, .coding, .reading, .writing]) ∧
      (mapActivityToState a = .IDLE ↔
        a ∈ [AgentActivity.done, .idle, .waiting, .paused]) ∧
      (mapActivityToState a = .LEAVING ↔
        a ∈ [AgentActivity.leaving, .offline, .disconnected]) := by
  intro a
  cases a <;> decide

/-- Claim C2: creating an id that is already present fails (`none`) and
leaves the whole registry — in particular the stored agent with all its
fields — unmodified; removing with a non-owning key fails (`none`) and
leaves the registry unmodified. -/
theorem c2_duplicate_create_and_foreign_remove :
    ∀ (reg : Registry) (id : String) (a : Agent) (dn : String)
      (act : AgentActivity) (ok odn : String) (vi : Option Nat)
      (rv now : Nat) (k : String),
      reg.lookup id = some a →
      createAgent reg id dn act ok odn vi rv now = (none, reg) ∧
      (k ≠ a.ownerKey → removeAgent reg id k = (none, reg)) := by
  intro reg id a dn act ok odn vi rv now k h
  constructor
  · simp [createAgent, h]
  · intro hk
    simp [removeAgent, h, Ne.symm hk]

/-- Witness for C2 at a concrete registry holding `demoAgent` under "a1". -/
theorem c2_witness :
    ([("a1", demoAgent)] : Registry).lookup "a1" = some demoAgent ∧
    createAgent [("a1", demoAgent)] "a1" "Nu" .coding "k2" "Bob" none 3 7 =
      (none, [("a1", demoAgent)]) ∧
    removeAgent [("a1", demoAgent)] "a1" "k2" = (none, [("a1", demoAgent)]) := by
  refine ⟨by decide, ?_, ?_⟩
  · exact (c2_duplicate_create_and_foreign_remove [("a1", demoAgent)] "a1"
      demoAgent "Nu" .coding "k2" "Bob" none 3 7 "k2" (by decide)).1
  · exact (c2_duplicate_create_and_foreign_remove [("a1", demoAgent)] "a1"
      demoAgent "Nu" .coding "k2" "Bob" none 3 7 "k2" (by decide)).2
      (by decide)

/-- Claim C9: one throwing listener does not stop the others — every
listener is invoked with the same event, in order — and the mutation's
effect on the agent map does not depend on the listeners at all. -/
theorem c9_listener_isolation :
    ∀ (ls : List Listener) (k : EvKind) (a : Agent),
      (∀ i : Nat, (notifyListeners ls k a)[i]? = (ls[i]?).map (fun f => f k a)) ∧
      (∀ (reg : Registry) (id dn : String) (act : AgentActivity)
        (ok odn : String) (vi : Option Nat) (rv now : Nat),
        (createAgentN ls reg id dn act ok odn vi rv now).1 =
          createAgent reg id dn act ok odn vi rv now ∧
        (updateAgentActivityN ls reg id act ok now).1 =
          updateAgentActivity reg id act ok now ∧
        (removeAgentN ls reg id ok).1 = removeAgent reg id ok) := by
  intro ls k a
  constructor
  · intro i
    induction ls generalizing i with
    | nil => simp [notifyListeners]
    | cons f rest ih =>
      cases i with
      | zero => simp [notifyListeners]
      | succ j => simpa [notifyListeners] using ih j
  · intro reg id dn act ok odn vi rv now
    refine ⟨?_, ?_, ?_⟩
    · unfold createAgentN
      split <;> simp_all
    · unfold updateAgentActivityN
      split <;> simp_all
    · unfold removeAgentN
      split <;> simp_all

/-- Every request issued by `ServerClient.createAgent` or
`ServerClient.updateAgent` for a session targets that session's agent id. -/
theorem serverClient_trace_ids :
    ∀ (k : Nat) (o : Oracle) (st : ClientState) (s : TrackedSession)
      (depth n : Nat), 3 - depth ≤ k →
      (∀ c ∈ (ServerClient.createAgent o st s depth n).2.2,
        c = Call.create s.agentId ∨ c = Call.update s.agentId) ∧
      (∀ c ∈ (ServerClient.updateAgent o st s depth n).2.2,
        c = Call.create s.agentId ∨ c = Call.update s.agentId) := by
  intro k
  induction k with
  | zero =>
    intro o st s depth n hk
    have hd : ¬depth < 3 := by omega
    constructor
    · intro c hc
      unfold ServerClient.createAgent at hc
      cases hresp : o.createResp n s.agentId <;>
        simp only [hresp] at hc
      · left; simpa using hc
      · rw [dif_neg hd] at hc
        left; simpa using hc
      · left; simpa using hc
    · intro c hc
      unfold ServerClient.updateAgent at hc
      by_cases hskip : st.lastActivityMap.lookup s.agentId =
          some (mapActivityToBackend s.activityType) ∧
          st.lastContextMap.lookup s.agentId = some s.contextPercentage
      · rw [if_pos hskip] at hc
        simp at hc
      · rw [if_neg hskip] at hc
        cases hresp : o.updateResp n s.agentId <;>
          simp only [hresp] at hc
        · right; simpa using hc
        · rw [dif_neg hd] at hc
          right; simpa using hc
        · right; simpa using hc
  | succ k ih =>
    intro o st s depth n hk
    constructor
    · intro c hc
      unfold ServerClient.createAgent at hc
      cases hresp : o.createResp n s.agentId <;>
        simp only [hresp] at hc
      · left; simpa using hc
      · by_cases hd : depth < 3
        · rw [dif_pos hd] at hc
          simp only [List.mem_cons] at hc
          rcases hc with hc | hc
          · left; exact hc
          · exact (ih o _ s (depth + 1) (n + 1) (by omega)).2 c hc
        · rw [dif_neg hd] at hc
          left; simpa using hc
      · left; simpa using hc
    · intro c hc
      unfold ServerClient.updateAgent at hc
      by_cases hskip : st.lastActivityMap.lookup s.agentId =
          some (mapActivityToBackend s.activityType) ∧
          st.lastContextMap.lookup s.agentId = some s.contextPercentage
      · rw [if_pos hskip] at hc
        simp at hc
      · rw [if_neg hskip] at hc
        cases hresp : o.updateResp n s.agentId <;>
          simp only [hresp] at hc
        · right; simpa using hc
        · by_cases hd : depth < 3
          · rw [dif_pos hd] at hc
            by_cases hdone : mapActivityToBackend s.activityType =
                AgentActivity.done
            · rw [if_pos hdone] at hc
              right; simpa using hc
            · rw [if_neg hdone] at hc
              simp only [List.mem_cons] at hc
              rcases hc with hc | hc
              · right; exact hc
              · exact (ih o _ s (depth + 1) (n + 1) (by omega)).1 c hc
          · rw [dif_neg hd] at hc
            right; simpa using hc
        · right; simpa using hc

/-- A create request can leave `ServerClient.updateAgent` only through the
recreate branch, which requires the session's mapped activity to differ
from `done`. -/
theorem updateAgent_create_trace :
    ∀ (o : Oracle) (st : ClientState) (s : TrackedSession) (depth n : Nat)
      (i : String),
      Call.create i ∈ (ServerClient.updateAgent o st s depth n).2.2 →
      i = s.agentId ∧ mapActivityToBackend s.activityType ≠ .done := by
  intro o st s depth n i hc
  unfold ServerClient.updateAgent at hc
  by_cases hskip : st.lastActivityMap.lookup s.agentId =
      some (mapActivityToBackend s.activityType) ∧
      st.lastContextMap.lookup s.agentId = some s.contextPercentage
  · rw [if_pos hskip] at hc
    simp at hc
  · rw [if_neg hskip] at hc
    cases hresp : o.updateResp n s.agentId <;>
      simp only [hresp] at hc
    · simp at hc
    · by_cases hd : depth < 3
      · rw [dif_pos hd] at hc
        by_cases hdone : mapActivityToBackend s.activityType =
            AgentActivity.done
        · rw [if_pos hdone] at hc
          simp at hc
        · rw [if_neg hdone] at hc
          simp only [List.mem_cons] at hc
          rcases hc with hc | hc
          · cases hc
          · have hid := (serverClient_trace_ids (3 - (depth + 1)) o _ s
              (depth + 1) (n + 1) le_rfl).1 _ hc
            rcases hid with h2 | h2
            · refine ⟨?_, hdone⟩
              injection h2
            · cases h2
      · rw [dif_neg hd] at hc
        simp at hc
    · simp at hc

/-- `ServerClient.removeAgent` always issues exactly one delete request for
the given id. -/
theorem removeAgent_trace :
    ∀ (o : Oracle) (st : ClientState) (id : String) (n : Nat),
      (ServerClient.removeAgent o st id n).2.2 = [Call.remove id] := by
  intro o st id n
  unfold ServerClient.removeAgent
  cases o.removeResp n id <;> rfl

/-- The removal loop issues only delete requests. -/
theorem removeLoop_no_create :
    ∀ (o : Oracle) (ids : List String) (st : ClientState) (n : Nat)
      (i : String),
      Call.create i ∉ (ServerClient.removeLoop o st ids n).2 := by
  intro o ids
  induction ids with
  | nil =>
    intro st n i h
    simp [ServerClient.removeLoop] at h
  | cons id rest ih =>
    intro st n i h
    unfold ServerClient.removeLoop at h
    rw [List.mem_append] at h
    rcases h with h | h
    · rw [removeAgent_trace] at h
      simp at h
    · exact ih _ _ i h

/-- Every create request issued by the create-or-update loop of `syncAll`
comes from a listed session whose mapped activity is not `done`. -/
theorem syncLoop_create_src :
    ∀ (o : Oracle) (sessions : List TrackedSession) (st : ClientState)
      (n : Nat) (i : String),
      Call.create i ∈ (ServerClient.syncLoop o st sessions n).2 →
      ∃ s ∈ sessions, s.agentId = i ∧
        mapActivityToBackend s.activityType ≠ .done := by
  intro o sessions
  induction sessions with
  | nil =>
    intro st n i h
    simp [ServerClient.syncLoop] at h
  | cons s rest ih =>
    intro st n i h
    unfold ServerClient.syncLoop at h
    by_cases hs : s.agentId ∈ st.syncedAgents
    · simp only [hs, if_true] at h
      by_cases hch : st.lastActivityMap.lookup s.agentId ≠
          some (mapActivityToBackend s.activityType) ∨
          st.lastContextMap.lookup s.agentId ≠ some s.contextPercentage
      · rw [if_pos hch] at h
        rw [List.mem_append] at h
        rcases h with h | h
        · obtain ⟨hid, hdone⟩ := updateAgent_create_trace o st s 0 n i h
          exact ⟨s, List.mem_cons_self s rest, hid.symm, hdone⟩
        · obtain ⟨s2, hs2, hrest⟩ := ih _ _ i h
          exact ⟨s2, List.mem_cons_of_mem _ hs2, hrest⟩
      · rw [if_neg hch] at h
        obtain ⟨s2, hs2, hrest⟩ := ih _ _ i h
        exact ⟨s2, List.mem_cons_of_mem _ hs2, hrest⟩
    · simp only [hs, if_false] at h
      by_cases hdone : mapActivityToBackend s.activityType = AgentActivity.done
      · rw [if_pos hdone] at h
        obtain ⟨s2, hs2, hrest⟩ := ih _ _ i h
        exact ⟨s2, List.mem_cons_of_mem _ hs2, hrest⟩
      · rw [if_neg hdone] at h
        rw [List.mem_append] at h
        rcases h with h | h
        · have hid := (serverClient_trace_ids 3 o st s 0 n (by omega)).1 _ h
          rcases hid with h2 | h2
          · refine ⟨s, List.mem_cons_self s rest, ?_, hdone⟩
            injection h2 with h3
            exact h3.symm
          · cases h2
        · obtain ⟨s2, hs2, hrest⟩ := ih _ _ i h
          exact ⟨s2, List.mem_cons_of_mem _ hs2, hrest⟩

/-- An element never survives deleting itself from a set. -/
theorem not_mem_setDelete_self :
    ∀ (s : List String) (x : String), x ∉ setDelete x s := by
  intro s x h
  unfold setDelete at h
  have h2 := List.of_mem_filter h
  simp at h2

/-- Claim C4: (1) every create request `syncAll` issues targets a listed
session whose mapped activity is not `done` — so a `done` session, synced
or not, is never (re)created; (2) when an update for a `done` session
answers not-found (at recursion depth 0, with the change check passed),
the client clears its local sync state for that id, reports success, and
issues no create request (its request trace is just the one update). -/
theorem c4_done_never_created :
    (∀ (o : Oracle) (st : ClientState) (sessions : List TrackedSession)
      (n : Nat) (i : String),
      Call.create i ∈ (ServerClient.syncAll o st sessions n).2 →
      ∃ s ∈ sessions, s.agentId = i ∧
        mapActivityToBackend s.activityType ≠ .done) ∧
    (∀ (o : Oracle) (st : ClientState) (s : TrackedSession) (n : Nat),
      mapActivityToBackend s.activityType = .done →
      ¬(st.lastActivityMap.lookup s.agentId =
          some (mapActivityToBackend s.activityType) ∧
        st.lastContextMap.lookup s.agentId = some s.contextPercentage) →
      o.updateResp n s.agentId = .notFound →
      ServerClient.updateAgent o st s 0 n =
        (true,
         { syncedAgents := setDelete s.agentId st.syncedAgents
           lastActivityMap := mapDelete s.agentId st.lastActivityMap
           lastContextMap := mapDelete s.agentId st.lastContextMap },
         [Call.update s.agentId])) := by
  constructor
  · intro o st sessions n i h
    simp only [ServerClient.syncAll] at h
    split at h
    · simp at h
    · rw [List.mem_append] at h
      rcases h with h | h
      · exact absurd h (removeLoop_no_create o _ st n i)
      · exact syncLoop_create_src o sessions _ _ i h
  · intro o st s n hdone hskip hresp
    unfold ServerClient.updateAgent
    rw [if_neg hskip, hresp, dif_pos (by omega : (0 : Nat) < 3),
      if_pos hdone]

/-- Oracle for the C4 witness: creates succeed, updates answer 404. -/
def c4oracle : Oracle :=
  { createResp := fun _ _ => .ok
    updateResp := fun _ _ => .notFound
    removeResp := fun _ _ => .ok }

/-- A finished session (maps to backend activity `done`). -/
def c4doneSession : TrackedSession :=
  { agentId := "s1", activityType := .done, contextPercentage := 0 }

/-- A working session (maps to backend activity `thinking`). -/
def c4workSession : TrackedSession :=
  { agentId := "s2", activityType := .thinking, contextPercentage := 0 }

/-- Empty client sync state for the C4 witness. -/
def c4state : ClientState :=
  { syncedAgents := [], lastActivityMap := [], lastContextMap := [] }

/-- Witness for C4: in a sync cycle over an unsynced done session and an
unsynced working session, the only create targets the working session; and
the not-found update for the done session is dropped as success with the
local state cleared. -/
theorem c4_witness :
    (∃ s ∈ [c4doneSession, c4workSession], s.agentId = "s2" ∧
      mapActivityToBackend s.activityType ≠ .done) ∧
    ServerClient.updateAgent c4oracle c4state c4doneSession 0 0 =
      (true,
       { syncedAgents := setDelete "s1" c4state.syncedAgents
         lastActivityMap := mapDelete "s1" c4state.lastActivityMap
         lastContextMap := mapDelete "s1" c4state.lastContextMap },
       [Call.update "s1"]) := by
  constructor
  · exact c4_done_never_created.1 c4oracle c4state
      [c4doneSession, c4workSession] 0 "s2"
      (by
        simp [ServerClient.syncAll, ServerClient.syncLoop,
          ServerClient.removeLoop, ServerClient.createAgent, c4oracle,
          c4state, c4doneSession, c4workSession, mapActivityToBackend])
  · exact c4_done_never_created.2 c4oracle c4state c4doneSession 0
      (by decide) (by decide) (by decide)

/-- Claim C10: `ServerClient.removeAgent` reports success and clears the
local sync state (synced set, last-activity map, last-context map) for the
id both when the server confirms the deletion and when it answers
not-found; on any other failure it reports false and leaves the local
state untouched. -/
theorem c10_removeAgent_behavior :
    ∀ (o : Oracle) (st : ClientState) (id : String) (n : Nat),
      (o.removeResp n id ≠ .error →
        ServerClient.removeAgent o st id n =
          (true,
           { syncedAgents := setDelete id st.syncedAgents
             lastActivityMap := mapDelete id st.lastActivityMap
             lastContextMap := mapDelete id st.lastContextMap },
           [Call.remove id]) ∧
        id ∉ (ServerClient.removeAgent o st id n).2.1.syncedAgents ∧
        (ServerClient.removeAgent o st id n).2.1.lastActivityMap.lookup id
          = none ∧
        (ServerClient.removeAgent o st id n).2.1.lastContextMap.lookup id
          = none) ∧
      (o.removeResp n id = .error →
        ServerClient.removeAgent o st id n = (false, st, [Call.remove id])) := by
  intro o st id n
  constructor
  · intro hne
    unfold ServerClient.removeAgent
    cases hresp : o.removeResp n id
    · exact ⟨rfl, not_mem_setDelete_self _ _, lookup_mapDelete_self _ _,
        lookup_mapDelete_self _ _⟩
    · exact ⟨rfl, not_mem_setDelete_self _ _, lookup_mapDelete_self _ _,
        lookup_mapDelete_self _ _⟩
    · exact absurd hresp hne
  · intro hresp
    unfold ServerClient.removeAgent
    rw [hresp]

/-- Oracle for the C10 witness: the first delete succeeds, later ones
fail. -/
def c10oracle : Oracle :=
  { createResp := fun _ _ => .ok
    updateResp := fun _ _ => .ok
    removeResp := fun n _ => if n = 0 then .ok else .error }

/-- Client state holding one synced agent for the C10 witness. -/
def c10state : ClientState :=
  { syncedAgents := ["a1"]
    lastActivityMap := [("a1", AgentActivity.idle)]
    lastContextMap := [("a1", 5)] }

/-- Witness for C10: a confirmed delete clears and succeeds; a failed
delete returns false with the state untouched. -/
theorem c10_witness :
    ServerClient.removeAgent c10oracle c10state "a1" 0 =
      (true,
       { syncedAgents := setDelete "a1" c10state.syncedAgents
         lastActivityMap := mapDelete "a1" c10state.lastActivityMap
         lastContextMap := mapDelete "a1" c10state.lastContextMap },
       [Call.remove "a1"]) ∧
    ServerClient.removeAgent c10oracle c10state "a1" 1 =
      (false, c10state, [Call.remove "a1"]) :=
  ⟨((c10_removeAgent_behavior c10oracle c10state "a1" 0).1 (by decide)).1,
   (c10_removeAgent_behavior c10oracle c10state "a1" 1).2 (by decide)⟩

/-- After any `readNewLines` call, the stored position for the path equals
the file's size at call time. -/
theorem readNewLines_post_position :
    ∀ parse rs path file,
      (((readNewLines parse rs path file).2).filePositions.lookup path).getD 0
        = file.length := by
  intro parse rs path file
  unfold readNewLines readStep
  by_cases h1 : file.length < (rs.filePositions.lookup path).getD 0
  · simp only [h1, if_true]
    by_cases h2 : file.length ≤ 0
    · simp only [h2, if_true]
      have h0 : file.length = 0 := Nat.le_zero.mp h2
      simp [lookup_mapSet_self, h0]
    · simp only [h2, if_false]
      simp [updateCache, lookup_mapSet_self]
  · simp only [h1, if_false]
    by_cases h2 : file.length ≤ (rs.filePositions.lookup path).getD 0
    · simp only [h2, if_true]
      omega
    · simp only [h2, if_false]
      simp [updateCache, lookup_mapSet_self]

/-- Splitting on newlines peels off one newline-free line at a time. -/
theorem splitNl_line_append :
    ∀ (l rest : List Char), '\n' ∉ l →
      splitNl (l ++ '\n' :: rest) = l :: splitNl rest := by
  intro l rest
  induction l with
  | nil =>
    intro _
    simp [splitNl]
  | cons c cs ih =>
    intro hnl
    have hc : ¬c = '\n' := fun h => hnl (by simp [h])
    have hcs : '\n' ∉ cs := fun h => hnl (by simp [h])
    show splitNl (c :: (cs ++ '\n' :: rest)) = (c :: cs) :: splitNl rest
    simp only [splitNl]
    rw [if_neg hc, ih hcs]

/-- Parsing the concatenation of well-formed lines yields one record per
line. -/
theorem parseJsonl_joinLines_length :
    ∀ (parse : List Char → Option ConversationMessage)
      (lines : List (List Char)),
      (∀ l ∈ lines, goodLine parse l) →
      (parseJsonlContent parse (joinLines lines)).length = lines.length := by
  intro parse lines
  induction lines with
  | nil => intro _; rfl
  | cons l tl ih =>
    intro hgood
    obtain ⟨hnl, htrim, hparse⟩ := hgood l (List.mem_cons_self l tl)
    have htl : ∀ x ∈ tl, goodLine parse x :=
      fun x hx => hgood x (List.mem_cons_of_mem _ hx)
    show (parseJsonlContent parse (l ++ '\n' :: joinLines tl)).length
      = tl.length + 1
    unfold parseJsonlContent
    rw [splitNl_line_append l (joinLines tl) hnl, List.filterMap_cons]
    obtain ⟨msg, hmsg⟩ := Option.isSome_iff_exists.mp hparse
    have hlen : ¬(jsTrim l).length = 0 := by
      simpa [List.length_eq_zero] using htrim
    simp only [hlen, if_false, hmsg, List.length_cons]
    have h3 : (List.filterMap
        (fun line => if (jsTrim line).length = 0 then none
          else parse (jsTrim line))
        (splitNl (joinLines tl))).length = tl.length := ih htl
    omega

/-- `slice(-n)` keeps at most `n` elements (for `n ≠ 0`). -/
theorem sliceNegFrom_length_le {α : Type} :
    ∀ (n : Nat) (l : List α), n ≠ 0 → (sliceNegFrom n l).length ≤ n := by
  intro n l hn
  simp only [sliceNegFrom, hn, if_false, List.length_drop]
  omega

/-- Claim C7: (1) a second `readNewLines` on an unchanged file yields no
records and leaves the state unchanged; (2) when the stored position is at
the end of the file, appending `k` well-formed JSONL lines yields exactly
`k` records on the next call; (3) a `readNewLines` call keeps the per-file
cache within the configured cap. -/
theorem c7_incremental_reader :
    (∀ (parse : List Char → Option ConversationMessage) (rs : ReaderState)
      (path : String) (file : List Char),
      readNewLines parse (readNewLines parse rs path file).2 path file =
        ([], (readNewLines parse rs path file).2)) ∧
    (∀ (parse : List Char → Option ConversationMessage) (rs : ReaderState)
      (path : String) (file : List Char) (lines : List (List Char)),
      (rs.filePositions.lookup path).getD 0 = file.length →
      (∀ l ∈ lines, goodLine parse l) →
      (readNewLines parse rs path (file ++ joinLines lines)).1.length =
        lines.length) ∧
    (∀ (parse : List Char → Option ConversationMessage) (rs : ReaderState)
      (path : String) (file : List Char),
      0 < rs.maxCachedMessages →
      cacheLen rs path ≤ rs.maxCachedMessages →
      cacheLen (readNewLines parse rs path file).2 path ≤
        rs.maxCachedMessages) := by
  refine ⟨?_, ?_, ?_⟩
  · intro parse rs path file
    have hpos := readNewLines_post_position parse rs path file
    conv in readNewLines parse (readNewLines parse rs path file).2 path file =>
      rw [readNewLines]
    simp [hpos]
  · intro parse rs path file lines hpos hgood
    cases lines with
    | nil =>
      simp only [joinLines, List.foldr_nil, List.append_nil]
      unfold readNewLines
      simp [hpos]
    | cons l0 tl =>
      have hjl : 0 < (joinLines (l0 :: tl)).length := by
        show 0 < (l0 ++ '\n' :: joinLines tl).length
        simp
      unfold readNewLines readStep
      rw [hpos]
      have hc1 : ¬(file ++ joinLines (l0 :: tl)).length < file.length := by
        simp
      have hc2 : ¬(file ++ joinLines (l0 :: tl)).length ≤ file.length := by
        simp only [List.length_append]
        omega
      simp only [hc1, if_false, hc2]
      rw [List.drop_left]
      have htake : (file ++ joinLines (l0 :: tl)).length - file.length =
          (joinLines (l0 :: tl)).length := by
        simp
      rw [htake, List.take_length]
      exact parseJsonl_joinLines_length parse (l0 :: tl) hgood
  · intro parse rs path file hcap hbound
    unfold readNewLines readStep
    by_cases h1 : file.length < (rs.filePositions.lookup path).getD 0
    · simp only [h1, if_true]
      by_cases h2 : file.length ≤ 0
      · simp only [h2, if_true]
        simp [cacheLen, lookup_mapDelete_self]
      · simp only [h2, if_false]
        simp only [cacheLen, updateCache, lookup_mapSet_self, Option.getD_some]
        exact sliceNegFrom_length_le _ _ (Nat.pos_iff_ne_zero.mp hcap)
    · simp only [h1, if_false]
      by_cases h2 : file.length ≤ (rs.filePositions.lookup path).getD 0
      · simpa [h2] using hbound
      · simp only [h2, if_false]
        simp only [cacheLen, updateCache, lookup_mapSet_self, Option.getD_some]
        exact sliceNegFrom_length_le _ _ (Nat.pos_iff_ne_zero.mp hcap)

/-- Witness for C7 at a concrete file "x\n" and a one-line append "a\n". -/
theorem c7_witness :
    readNewLines c7parse (readNewLines c7parse c7rs0 "f" c7file).2 "f" c7file
      = ([], (readNewLines c7parse c7rs0 "f" c7file).2) ∧
    (readNewLines c7parse (readNewLines c7parse c7rs0 "f" c7file).2 "f"
      (c7file ++ joinLines [['a']])).1.length = 1 ∧
    cacheLen (readNewLines c7parse c7rs0 "f" c7file).2 "f" ≤ 200 := by
  refine ⟨?_, ?_, ?_⟩
  · exact c7_incremental_reader.1 c7parse c7rs0 "f" c7file
  · exact c7_incremental_reader.2.1 c7parse
      (readNewLines c7parse c7rs0 "f" c7file).2 "f" c7file [['a']]
      (by decide)
      (by
        intro l hl
        have hla : l = ['a'] := by simpa using hl
        subst hla
        exact ⟨by decide, by decide, by decide⟩)
  · exact c7_incremental_reader.2.2 c7parse c7rs0 "f" c7file
      (by decide) (by decide)

/-- Counterexample to claim C1: with a liveness pid present, a window whose
newest record is an assistant text-only message classifies as `idle`, not
`done` (the code computes `staleType = hasPid ? 'idle' : 'done'`, the
reverse of the claim); and a stale window (last modified at 1000, read at
40000, i.e. 39000 ms > 30 s since modification) whose newest record is a
user tool_result message classifies as `thinking`, which the claim rules
out for stale windows. -/
theorem c1_counterexample :
    getLatestActivity [asstTextMsg] (some 1000) true 1000 =
      { type := ActivityType.idle } ∧
    getLatestActivity [userToolResultMsg] (some 1000) true 40000 =
      { type := ActivityType.thinking } ∧
    ({ type := ActivityType.idle } : ActivityInfo) ≠
      { type := ActivityType.done } ∧
    40000 - 1000 > ACTIVITY_TIMEOUT_MS := by
  decide

/-- Claim C1 as amended: for every window whose newest record is an
assistant text-only message (no tool_use block), `getLatestActivity`
returns `idle` when the pid hint is present and `done` when it is absent —
never `thinking` — regardless of staleness; and for every stale window
(nonzero last-modified timestamp more than 30 s before `now`; a zero
timestamp is falsy in JS and never counts as stale) whose newest record is
a plain user text message, the same pid-dependent fallback applies. -/
theorem c1_stale_fallback_amended :
    (∀ (ms : List ConversationMessage) (m : ConversationMessage)
      (body : MessageBody) (bs : List ContentBlock)
      (lastModified : Option Nat) (hasPid : Bool) (now : Nat),
      m.type = "assistant" → m.message = some body →
      body.role = "assistant" → body.content = .blocks bs →
      bs.any (fun b => b.type == "text") = true →
      bs.any (fun b => b.type == "tool_use") = false →
      getLatestActivity (ms ++ [m]) lastModified hasPid now =
        { type := if hasPid then ActivityType.idle else ActivityType.done }) ∧
    (∀ (ms : List ConversationMessage) (m : ConversationMessage)
      (body : MessageBody) (s : String) (t : Nat) (hasPid : Bool) (now : Nat),
      m.type = "user" → m.message = some body → body.role = "user" →
      body.content = .str s → t ≠ 0 → now - t > ACTIVITY_TIMEOUT_MS →
      getLatestActivity (ms ++ [m]) (some t) hasPid now =
        { type := if hasPid then ActivityType.idle else ActivityType.done }) := by
  constructor
  · intro ms m body bs lastModified hasPid now htype hmsg hrole hcontent hText hTU
    have hfind : bs.find? (fun b => b.type == "tool_use") = none := by
      rw [List.find?_eq_none]
      intro x hx
      have := List.any_eq_false.mp hTU x hx
      simpa using this
    simp [getLatestActivity, List.getLast?_concat, htype, scanMessages,
      hmsg, hcontent, hfind, hrole, hText, hTU]
  · intro ms m body s t hasPid now htype hmsg hrole hcontent ht hstale
    simp only [getLatestActivity, List.getLast?_concat, htype]
    simp [hmsg, hrole, hcontent, ht, hstale]

/-- Witness for C1's amended theorem: without a pid the assistant text-only
window yields `done`; with a pid a stale plain-user-text window (last
modified at the nonzero time 1000, read at 40000) yields `idle`. -/
theorem c1_amended_witness :
    getLatestActivity [asstTextMsg] none false 0 =
      { type := ActivityType.done } ∧
    getLatestActivity [userTextMsg] (some 1000) true 40000 =
      { type := ActivityType.idle } := by
  constructor
  · exact c1_stale_fallback_amended.1 [] asstTextMsg
      { role := "assistant"
        content := .blocks [{ type := "text", text := some "all done" }] }
      [{ type := "text", text := some "all done" }] none false 0
      rfl rfl rfl rfl (by decide) (by decide)
  · exact c1_stale_fallback_amended.2 [] userTextMsg
      { role := "user", content := .str "hi" } "hi" 1000 true 40000
      rfl rfl rfl rfl (by decide) (by decide)

/-- A run of spawn messages followed by a non-spawn message: `takeWhile`
keeps exactly the spawn run. -/
theorem takeWhile_spawn_run :
    ∀ (l : List Agent) (m : OutMsg) (ms : List OutMsg),
      isSpawnMsg m = false →
      ((l.map mkSpawnPayload) ++ m :: ms).takeWhile isSpawnMsg =
        l.map mkSpawnPayload := by
  intro l m ms hm
  induction l with
  | nil => simp [List.takeWhile, hm]
  | cons a tl ih => simp [List.takeWhile, mkSpawnPayload, isSpawnMsg, ih]

/-- Spawn messages are not `sync_complete` messages. -/
theorem filter_syncComplete_spawn_run :
    ∀ l : List Agent,
      (l.map mkSpawnPayload).filter isSyncCompleteMsg = [] := by
  intro l
  induction l with
  | nil => simp
  | cons a tl ih => simp [mkSpawnPayload, isSyncCompleteMsg, ih]

/-- Each agent contributes exactly one spawn message. -/
theorem countP_spawn_run :
    ∀ l : List Agent,
      (l.map mkSpawnPayload).countP isSpawnMsg = l.length := by
  intro l
  induction l with
  | nil => simp
  | cons a tl ih => simp [mkSpawnPayload, isSpawnMsg, List.countP_cons, ih]

/-- Claim C8: a newly connected subscriber is sent one `spawn_agent`
message per current agent — the message sequence starts with exactly those,
in registry order — and only after all of them a single `sync_complete`
message whose `agentIds` list is exactly the ids of the agents that were
replayed. -/
theorem c8_replay_then_sync_complete :
    ∀ agents : List Agent,
      (syncAgentsToClient agents).takeWhile isSpawnMsg =
        agents.map mkSpawnPayload ∧
      (syncAgentsToClient agents).countP isSpawnMsg = agents.length ∧
      (syncAgentsToClient agents).filter isSyncCompleteMsg =
        [OutMsg.syncComplete (agents.map (fun a => a.id))] := by
  intro agents
  refine ⟨?_, ?_, ?_⟩
  · exact takeWhile_spawn_run agents _ _ rfl
  · simp only [syncAgentsToClient, List.countP_append, countP_spawn_run]
    simp [List.countP_cons, isSpawnMsg]
  · simp [syncAgentsToClient, List.filter_append,
      filter_syncComplete_spawn_run, isSyncCompleteMsg]

/-- Setting the idle action of one agent to `some x` changes the count of
idle agents holding an action by at most one, and never decreases it. -/
theorem countActive_setAction_some_bounds :
    ∀ (l : List SAgent) (id : String) (x : IdleActionAssignment),
      countActiveIdleActions l ≤
        countActiveIdleActions (setAgentAction l id (some x)) ∧
      countActiveIdleActions (setAgentAction l id (some x)) ≤
        countActiveIdleActions l + 1 := by
  intro l id x
  induction l with
  | nil => simp [setAgentAction]
  | cons a rest ih =>
    rw [show setAgentAction (a :: rest) id (some x) =
        if a.id == id then { a with idleAction := some x } :: rest
        else a :: setAgentAction rest id (some x) from rfl]
    split
    · simp only [countActiveIdleActions, List.countP_cons]
      by_cases hs : a.state == AgentState.IDLE
      · cases hact : a.idleAction <;> simp [hs, hact]
      · simp [hs]
    · simp only [countActiveIdleActions, List.countP_cons]
      have h1 := ih
      simp only [countActiveIdleActions] at h1
      omega

/-- Counterexample to claim C5: starting from the empty scheduler state,
spawning one IDLE agent and letting its idle-action timer fire reaches a
state in which one of one idle agent holds an idle action — 100 percent of
the idle population, exceeding the claimed 40 percent bound (the fraction
`active/idle ≤ 0.4` is `5 * active ≤ 2 * idle` in exact arithmetic, and
here `5 * 1 > 2 * 1`). -/
theorem c5_counterexample :
    2 * countIdleAgents (List.foldl schedStep schedInit
        [SchedEvent.spawn "a" .IDLE, SchedEvent.timerFire "a" 0]).agents <
      5 * countActiveIdleActions (List.foldl schedStep schedInit
        [SchedEvent.spawn "a" .IDLE, SchedEvent.timerFire "a" 0]).agents := by
  decide

/-- Claim C5 as amended: the scheduler assigns an idle action only when,
at the moment the timer fires, strictly fewer than 40 percent of the idle
agents already hold one (`5 * active < 2 * idle`); whenever the idle
population is already at or above the 40 percent cap
(`2 * idle ≤ 5 * active`), a timer firing changes no agent.  The originally
claimed global 40 percent invariant does not hold, since the assignment
itself (and later shrinkage of the idle population) can push the fraction
above the cap. -/
theorem c5_amended_assignment_guard :
    ∀ (s : SchedState) (id : String) (now : Nat),
      (countActiveIdleActions (schedStep s (.timerFire id now)).agents >
          countActiveIdleActions s.agents →
        5 * countActiveIdleActions s.agents < 2 * countIdleAgents s.agents ∧
        countActiveIdleActions (schedStep s (.timerFire id now)).agents =
          countActiveIdleActions s.agents + 1) ∧
      (2 * countIdleAgents s.agents ≤ 5 * countActiveIdleActions s.agents →
        (schedStep s (.timerFire id now)).agents = s.agents) := by
  intro s id now
  by_cases hp : id ∈ s.pendingTimers
  · simp only [schedStep, hp, if_true]
    cases hf : findAgent s.agents id with
    | none =>
      simp [timerFireStep, hf]
    | some a =>
      have hmem : a ∈ s.agents := by
        have := List.find?_some hf
        exact List.mem_of_find?_eq_some hf
      by_cases hst : a.state = AgentState.IDLE
      · have hidle : 0 < countIdleAgents s.agents := by
          have : ∃ b ∈ s.agents, (b.state == AgentState.IDLE) = true :=
            ⟨a, hmem, by simp [hst]⟩
          simpa [countIdleAgents, List.countP_pos_iff] using this
        by_cases hg : 0 < countIdleAgents s.agents ∧
            2 * countIdleAgents s.agents ≤ 5 * countActiveIdleActions s.agents
        · -- at or above the cap: reschedule, agents unchanged
          simp only [timerFireStep, hf, hst]
          simp [scheduleIdleAction, hg]
        · -- below the cap: assignment happens
          have hlt : 5 * countActiveIdleActions s.agents <
              2 * countIdleAgents s.agents := by
            rcases Nat.lt_or_ge (5 * countActiveIdleActions s.agents)
                (2 * countIdleAgents s.agents) with h | h
            · exact h
            · exact absurd ⟨hidle, h⟩ hg
          simp only [timerFireStep, hf]
          rw [if_neg (fun hcon => hcon hst)]
          simp only [hg, if_false]
          have hb := countActive_setAction_some_bounds s.agents id
            { action := "get_drink", assignedAt := now }
          constructor
          · intro hinc
            refine ⟨hlt, ?_⟩
            omega
          · intro hge
            omega
      · simp [timerFireStep, hf, hst]
  · simp [schedStep, hp]

/-- Witness for C5's amended theorem: in `c5State` (one idle agent, zero
assigned actions) the timer firing does assign, and the theorem yields the
pre-assignment guard `5 * 0 < 2 * 1` and the exact increment. -/
theorem c5_amended_witness :
    countActiveIdleActions (schedStep c5State (.timerFire "a" 5)).agents >
      countActiveIdleActions c5State.agents ∧
    (5 * countActiveIdleActions c5State.agents <
        2 * countIdleAgents c5State.agents ∧
      countActiveIdleActions (schedStep c5State (.timerFire "a" 5)).agents =
        countActiveIdleActions c5State.agents + 1) :=
  ⟨by decide, (c5_amended_assignment_guard c5State "a" 5).1 (by decide)⟩

/-- Counterexample to claim C6: issuing twice for the same user leaves two
tokens for that user in the store — `generateToken` does not remove the
prior token, so the store does not hold exactly one token for the user. -/
theorem c6_counterexample :
    userTokenCount
      (generateToken (generateToken [] aliceUser demoConfig 0 "t1").2
        aliceUser demoConfig 1000 "t2").2 "k1" = 2 := by
  decide

/-- Claim C6 as amended: `generateToken` creates a token with
`expiresAt = createdAt + tokenExpirySeconds * 1000` and
`createdAt = lastActivity = now`, and inserts it under its fresh value;
prior tokens (stored under other values) are all retained, so the store may
hold several tokens for the same user. -/
theorem c6_generateToken_amended :
    ∀ (store : TokenStore) (user : AuthUser) (cfg : BackendConfig)
      (now : Nat) (v : String),
      (generateToken store user cfg now v).1.expiresAt =
        (generateToken store user cfg now v).1.createdAt +
          cfg.tokenExpirySeconds * 1000 ∧
      (generateToken store user cfg now v).1.createdAt = now ∧
      (generateToken store user cfg now v).1.lastActivity = now ∧
      (generateToken store user cfg now v).1.user = user ∧
      (generateToken store user cfg now v).2 =
        mapSet v (generateToken store user cfg now v).1 store ∧
      (∀ e ∈ store, e.1 ≠ v → e ∈ (generateToken store user cfg now v).2) := by
  intro store user cfg now v
  refine ⟨rfl, rfl, rfl, rfl, rfl, ?_⟩
  intro e he hne
  exact mem_mapSet_of_ne store v _ e he hne

/-- Witness for C6's amended theorem at a concrete store. -/
theorem c6_amended_witness :
    (generateToken [("t1", (generateToken [] aliceUser demoConfig 0 "t1").1)]
        aliceUser demoConfig 1000 "t2").1.expiresAt = 1000 + 3600 * 1000 ∧
    ("t1", (generateToken [] aliceUser demoConfig 0 "t1").1) ∈
      (generateToken [("t1", (generateToken [] aliceUser demoConfig 0 "t1").1)]
        aliceUser demoConfig 1000 "t2").2 := by
  constructor
  · exact (c6_generateToken_amended
      [("t1", (generateToken [] aliceUser demoConfig 0 "t1").1)]
      aliceUser demoConfig 1000 "t2").1
  · exact (c6_generateToken_amended
      [("t1", (generateToken [] aliceUser demoConfig 0 "t1").1)]
      aliceUser demoConfig 1000 "t2").2.2.2.2.2
      ("t1", (generateToken [] aliceUser demoConfig 0 "t1").1)
      (by decide) (by decide)

end AgentOffice
